import Mathlib

/-!
# Vikings quiz: shuffle and session core of `src/App.jsx`

A shallow embedding of the randomisation and state-machine core of the quiz
component, followed by the properties established about it.

Modelling conventions.

* JavaScript arrays are Lean lists; `arr[i] = v` on an in-bounds index is
  `List.set`.
* JavaScript numbers that the code can make negative (`findIndex` yields `-1`,
  `Math.min(items.length - 1, _)` yields `-1` on an empty list, a caller may
  pass any index to `chooseOption`) are `Int`; counters that only ever hold
  `0` or `prev + 1` are `Nat`.
* `null` is `Option.none`.
* `Math.floor(Math.random() * (i + 1))` is an integer `j` with `0 ≤ j ≤ i`;
  the random source is therefore a value of `Draws`, which supplies for each
  loop position `i` an element of `Fin (i + 1)`.  Every call of
  `shuffleArray` receives its own `Draws`.
* React state is the record `QuizState`; a handler is a function from the
  state before the event to the state after it.
-/

namespace VikesQuiz

/-! ## Data model -/

/-- One entry of `quizQuestions`: prompt `q`, options `o`, correct index `a`. -/
structure QuestionTemplate where
  q : String
  o : List String
  a : Int
  deriving DecidableEq, Repr

/-- The object `{ t, c: i === a }` built for every option in `startQuiz`. -/
structure TaggedOption where
  t : String
  c : Bool
  deriving DecidableEq, Repr

/-- The object `{ q, opts, a, pick }` built for every question in `startQuiz`. -/
structure QuizItem where
  q : String
  opts : List String
  a : Int
  pick : Option Int
  deriving DecidableEq, Repr

/-- The values taken by `currentSection`. -/
inductive Section where
  | start
  | quiz
  | score
  deriving DecidableEq, Repr

/-- The five `useState` cells of `App`. -/
structure QuizState where
  items : List QuizItem
  currentQuestionIdx : Nat
  score : Nat
  reviewIdx : Int
  currentSection : Section
  deriving DecidableEq, Repr

/-- The initial values passed to `useState`. -/
def initialState : QuizState :=
  { items := [], currentQuestionIdx := 0, score := 0, reviewIdx := 0, currentSection := .start }

/-- The constant `quizQuestions`. -/
def quizQuestions : List QuestionTemplate :=
  [ { q := "Which Vikings defensive lineman recorded a safety in the 1970 season, showcasing the dominance of the Purple People Eaters?",
      o := ["Alan Page", "Jim Marshall", "Carl Eller", "Gary Larsen"], a := 0 },
    { q := "Who led the Vikings in rushing yards during the 1970 season?",
      o := ["Dave Osborn", "Chuck Foreman", "Oscar Reed", "Clint Jones"], a := 0 },
    { q := "Which Vikings player had the longest interception return in the 1970 season?",
      o := ["Paul Krause", "Ed Sharockman", "Charlie West", "Karl Kassulke"], a := 1 },
    { q := "In 1970, which Vikings linebacker was known for his coverage skills and recorded multiple interceptions?",
      o := ["Roy Winston", "Jeff Siemon", "Wally Hilgenberg", "Lonnie Warwick"], a := 3 },
    { q := "Which team handed the Vikings their first loss of the 1970 season, ending a 5-game win streak?",
      o := ["St. Louis Cardinals", "San Francisco 49ers", "Detroit Lions", "Dallas Cowboys"], a := 0 },
    { q := "What was the Vikings' point differential at the end of the 1970 regular season?",
      o := ["+140", "+124", "+98", "+112"], a := 1 },
    { q := "Which Vikings offensive lineman was selected to the Pro Bowl in 1970 for his run-blocking dominance?",
      o := ["Grady Alderman", "Mick Tingelhoff", "Ed White", "Steve Riley"], a := 0 },
    { q := "Which Vikings wide receiver caught a 65-yard touchdown pass in the 1970 playoff loss to the 49ers?",
      o := ["Gene Washington", "Bob Grim", "John Beasley", "John Henderson"], a := 1 },
    { q := "Who was the Vikings' punter in 1970, known for his hang time and directional kicking?",
      o := ["Mike Eischeid", "Greg Coleman", "Bob Lee", "Tommy Kramer"], a := 0 },
    { q := "Which Vikings assistant coach in 1970 later became an NFL head coach and GM?",
      o := ["Jerry Burns", "Pete Carroll", "Tony Dungy", "Mike Lynn"], a := 0 } ]

/-! ## Shuffler -/

/-- The random source of one `shuffleArray` call: at loop position `i` the value
of `Math.floor(Math.random() * (i + 1))`, an index between `0` and `i`. -/
def Draws : Type := (i : Nat) → Fin (i + 1)

/-- The draws that always pick index `0`. -/
def Draws.zero : Draws := fun _ => 0

/-- The destructuring swap `[arr[i], arr[j]] = [arr[j], arr[i]]`: both reads
happen first, then `arr[i]` and `arr[j]` are written in that order.  The loop
only calls it with both indices in bounds; outside them the list is returned
as it is. -/
def swap {α : Type} (arr : List α) (i j : Nat) : List α :=
  match arr[j]?, arr[i]? with
  | some x, some y => (arr.set i x).set j y
  | _, _ => arr

/-- The body of the `for` loop of `shuffleArray`, from position `i` down to
position `1` (the loop stops as soon as `i > 0` fails). -/
def shuffleLoop {α : Type} (d : Draws) : Nat → List α → List α
  | 0, arr => arr
  | i + 1, arr => shuffleLoop d i (swap arr (i + 1) (d (i + 1)).val)

/-- The function `shuffleArray`: copy the input, run the loop from
`arr.length - 1`, return the copy. -/
def shuffleArray {α : Type} (d : Draws) (array : List α) : List α :=
  shuffleLoop d (array.length - 1) array

/-- The draws one run of the loop on a list of length `n` actually makes: one
for every loop position `i = k + 1` with `1 ≤ i ≤ n - 1`, each an index
between `0` and `i`. -/
def DrawSeq (n : Nat) : Type := (k : Fin (n - 1)) → Fin (k.val + 2)

instance (n : Nat) : Fintype (DrawSeq n) :=
  inferInstanceAs (Fintype ((k : Fin (n - 1)) → Fin (k.val + 2)))

/-- A draw sequence as a random source: the recorded draw at the loop
positions `1 .. n - 1`, index `0` at the positions the loop never visits. -/
def DrawSeq.toDraws {n : Nat} (s : DrawSeq n) : Draws := fun i =>
  if h : 1 ≤ i ∧ i < n then
    ⟨(s ⟨i - 1, by omega⟩).val, by
      have hlt := (s ⟨i - 1, by omega⟩).isLt
      simp only at hlt
      omega⟩
  else 0

/-- The draws a random source makes at the loop positions `1 .. n - 1`. -/
def Draws.toDrawSeq (d : Draws) (n : Nat) : DrawSeq n := fun k => d (k.val + 1)

/-- The function `sanitizeText`, which is `String(text)`; its argument is
already a string. -/
def sanitizeText (text : String) : String := text

/-- The array method `findIndex`: the first index whose element satisfies the
predicate, `-1` when there is none. -/
def findIndex {α : Type} (p : α → Bool) (l : List α) : Int :=
  match l.findIdx? p with
  | some i => (i : Int)
  | none => -1

/-! ## Quiz session -/

/-- The callback of `quizQuestions.map` in `startQuiz`. -/
def buildItem (d : Draws) (tpl : QuestionTemplate) : QuizItem :=
  let opts := shuffleArray d
    (tpl.o.mapIdx fun i t => ({ t := t, c := decide ((i : Int) = tpl.a) } : TaggedOption))
  { q := sanitizeText tpl.q
    opts := opts.map fun x => sanitizeText x.t
    a := findIndex (fun x => x.c) opts
    pick := none }

/-- The handler `startQuiz` over a question bank.  `optDraws k` is the random
source of the option shuffle of the `k`-th template, `itemDraws` that of the
question shuffle.  No step of the `try` block throws on a bank of this type,
so the `catch` branch is never entered. -/
def startQuiz (bank : List QuestionTemplate) (optDraws : Nat → Draws) (itemDraws : Draws)
    (s : QuizState) : QuizState :=
  let newItems := bank.mapIdx fun k tpl => buildItem (optDraws k) tpl
  { s with
    items := shuffleArray itemDraws newItems
    currentQuestionIdx := 0
    score := 0
    currentSection := .quiz }

/-- The handler `chooseOption`.  When `items[currentQuestionIdx]` is undefined
the read of `.pick` throws, the `catch` branch logs, and no state changes. -/
def chooseOption (selectedIdx : Int) (s : QuizState) : QuizState :=
  match s.items[s.currentQuestionIdx]? with
  | none => s
  | some currentItem =>
    if currentItem.pick ≠ none then s
    else
      let updatedItems := s.items.set s.currentQuestionIdx { currentItem with pick := some selectedIdx }
      { s with
        items := updatedItems
        score := if selectedIdx = currentItem.a then s.score + 1 else s.score }

/-- The handler `goToNextQuestion`. -/
def goToNextQuestion (s : QuizState) : QuizState :=
  if s.currentQuestionIdx + 1 < s.items.length then
    { s with currentQuestionIdx := s.currentQuestionIdx + 1 }
  else
    { s with currentSection := .score, reviewIdx := 0 }

/-- The handler `restartQuiz`. -/
def restartQuiz (s : QuizState) : QuizState :=
  { s with items := [], currentSection := .start }

/-- The `onClick` of the `review-prev` button:
`setReviewIdx(Math.max(0, reviewIdx - 1))`. -/
def reviewPrev (s : QuizState) : QuizState :=
  { s with reviewIdx := max 0 (s.reviewIdx - 1) }

/-- The `onClick` of the `review-next` button:
`setReviewIdx(Math.min(items.length - 1, reviewIdx + 1))`. -/
def reviewNext (s : QuizState) : QuizState :=
  { s with reviewIdx := min ((s.items.length : Int) - 1) (s.reviewIdx + 1) }

/-- The number of items whose pick is their correct-option index
(`item.pick === item.a`, as the review screen computes `isCorrect`). -/
def correctCount (items : List QuizItem) : Nat :=
  items.countP fun it => decide (it.pick = some it.a)


/-! ## Events -/

/-- The keys `handleKeyDown` distinguishes. -/
inductive Key where
  | enter
  | arrowLeft
  | arrowRight
  | other
  deriving DecidableEq, Repr

/-- The test `items[currentQuestionIdx]?.pick !== null` of `handleKeyDown`:
an undefined item gives `undefined`, which is not `null`. -/
def currentPickNotNull (s : QuizState) : Bool :=
  match s.items[s.currentQuestionIdx]? with
  | none => true
  | some currentItem => decide (currentItem.pick ≠ none)

/-- The listener `handleKeyDown`.  `restartFocused` is the outcome of
`document.activeElement?.id === 'restart-button'`; the draws are those
`startQuiz` consumes when the key starts the quiz. -/
def handleKeyDown (bank : List QuestionTemplate) (key : Key) (restartFocused : Bool)
    (optDraws : Nat → Draws) (itemDraws : Draws) (s : QuizState) : QuizState :=
  if key = .enter then
    if s.currentSection = .start then startQuiz bank optDraws itemDraws s
    else if s.currentSection = .quiz ∧ currentPickNotNull s = true then goToNextQuestion s
    else if s.currentSection = .score ∧ restartFocused = true then restartQuiz s
    else s
  else if s.currentSection = .score then
    if key = .arrowLeft ∧ s.reviewIdx > 0 then { s with reviewIdx := s.reviewIdx - 1 }
    else if key = .arrowRight ∧ s.reviewIdx < (s.items.length : Int) - 1 then
      { s with reviewIdx := s.reviewIdx + 1 }
    else s
  else s

/-- One call into the component: a handler invoked with its argument, or a
key press. -/
inductive Event where
  | startQuiz (optDraws : Nat → Draws) (itemDraws : Draws)
  | chooseOption (selectedIdx : Int)
  | goToNextQuestion
  | reviewPrev
  | reviewNext
  | restartQuiz
  | keyDown (key : Key) (restartFocused : Bool) (optDraws : Nat → Draws) (itemDraws : Draws)

/-- The state after the handler of an event has run. -/
def handle (bank : List QuestionTemplate) (e : Event) (s : QuizState) : QuizState :=
  match e with
  | .startQuiz optDraws itemDraws => startQuiz bank optDraws itemDraws s
  | .chooseOption selectedIdx => chooseOption selectedIdx s
  | .goToNextQuestion => goToNextQuestion s
  | .reviewPrev => reviewPrev s
  | .reviewNext => reviewNext s
  | .restartQuiz => restartQuiz s
  | .keyDown key restartFocused optDraws itemDraws =>
    handleKeyDown bank key restartFocused optDraws itemDraws s

/-- Whether the rendered page offers the event.  The start button exists in
section `start`; the option buttons (one per entry of `currentItem.opts`) and,
once a pick is made, the next button exist in section `quiz`; the review and
restart buttons exist in section `score`; a key can always be pressed.  The
`disabled` attributes are not taken into account, so this enables at least
what the page enables. -/
def uiEnabled (e : Event) (s : QuizState) : Bool :=
  match e with
  | .startQuiz _ _ => decide (s.currentSection = .start)
  | .chooseOption selectedIdx =>
    decide (s.currentSection = .quiz) &&
      (match s.items[s.currentQuestionIdx]? with
        | none => false
        | some currentItem =>
          decide (0 ≤ selectedIdx ∧ selectedIdx < (currentItem.opts.length : Int)))
  | .goToNextQuestion =>
    decide (s.currentSection = .quiz) &&
      (match s.items[s.currentQuestionIdx]? with
        | none => false
        | some currentItem => decide (currentItem.pick ≠ none))
  | .reviewPrev => decide (s.currentSection = .score)
  | .reviewNext => decide (s.currentSection = .score)
  | .restartQuiz => decide (s.currentSection = .score)
  | .keyDown _ _ _ _ => true

/-- The state after a sequence of events; an event that is not enabled leaves
the state as it is. -/
def run (enabled : Event → QuizState → Bool) (bank : List QuestionTemplate)
    (events : List Event) (s : QuizState) : QuizState :=
  events.foldl (fun st e => if enabled e st = true then handle bank e st else st) s

/-! ## Sample data -/

/-- The two-question bank of the end-to-end test: first question correct at
index `0`, second at index `1`. -/
def twoQuestionBank : List QuestionTemplate :=
  [ { q := "Q1", o := ["a", "b"], a := 0 }, { q := "Q2", o := ["c", "d"], a := 1 } ]

/-- A bank whose only template has its correct index outside its options. -/
def malformedBank : List QuestionTemplate :=
  [ { q := "Q", o := ["x", "y"], a := 2 } ]

/-- A quiz state with one unanswered two-option item. -/
def oneItemState : QuizState :=
  { items := [{ q := "Q", opts := ["x", "y"], a := 0, pick := none }]
    currentQuestionIdx := 0, score := 0, reviewIdx := 0, currentSection := .quiz }

/-! ## Lemmas on the shuffler -/

theorem swap_eq_of_lt {α : Type} (arr : List α) {i j : Nat} (hi : i < arr.length)
    (hj : j < arr.length) : swap arr i j = (arr.set i arr[j]).set j arr[i] := by
  simp [swap, List.getElem?_eq_getElem hi, List.getElem?_eq_getElem hj]

theorem length_swap {α : Type} (arr : List α) (i j : Nat) :
    (swap arr i j).length = arr.length := by
  unfold swap
  split <;> simp

theorem getElem?_swap {α : Type} (arr : List α) {i j : Nat} (hi : i < arr.length)
    (hj : j < arr.length) (m : Nat) :
    (swap arr i j)[m]? = if m = j then arr[i]? else if m = i then arr[j]? else arr[m]? := by
  rw [swap_eq_of_lt arr hi hj, List.getElem?_set, List.getElem?_set]
  by_cases h1 : j = m
  · subst h1
    simp [hj, hi]
  · have h1' : ¬ m = j := fun h => h1 h.symm
    by_cases h2 : i = m
    · subst h2
      simp [h1, h1', hi, hj]
    · have h2' : ¬ m = i := fun h => h2 h.symm
      simp [h1, h1', h2, h2']

theorem swap_perm {α : Type} (arr : List α) (i j : Nat) : (swap arr i j).Perm arr := by
  by_cases hi : i < arr.length
  · by_cases hj : j < arr.length
    · have key : swap arr i j
          = List.ofFn (arr.get ∘ (Equiv.swap (⟨i, hi⟩ : Fin arr.length) ⟨j, hj⟩)) := by
        apply List.ext_getElem (by simp [length_swap])
        intro m h1 h2
        have hm : m < arr.length := by simpa [length_swap] using h1
        have hsw := getElem?_swap arr hi hj m
        rw [List.getElem?_eq_getElem h1] at hsw
        rw [List.getElem_ofFn]
        simp only [Function.comp_apply]
        by_cases e1 : m = j
        · subst e1
          simp [List.getElem?_eq_getElem hi] at hsw
          simp [hsw]
        · by_cases e2 : m = i
          · subst e2
            simp [e1, List.getElem?_eq_getElem hj] at hsw
            simp [hsw]
          · have fix : Equiv.swap (⟨i, hi⟩ : Fin arr.length) ⟨j, hj⟩ ⟨m, hm⟩ = ⟨m, hm⟩ :=
              Equiv.swap_apply_of_ne_of_ne (by simpa [Fin.ext_iff] using e2)
                (by simpa [Fin.ext_iff] using e1)
            simp [e1, e2, List.getElem?_eq_getElem hm] at hsw
            simp [hsw, fix]
      rw [key]
      have := Equiv.Perm.ofFn_comp_perm (Equiv.swap (⟨i, hi⟩ : Fin arr.length) ⟨j, hj⟩) arr.get
      rwa [List.ofFn_get] at this
    · simp [swap, List.getElem?_eq_none (Nat.le_of_not_lt hj)]
  · simp [swap, List.getElem?_eq_none (Nat.le_of_not_lt hi)]

theorem length_shuffleLoop {α : Type} (d : Draws) (i : Nat) (arr : List α) :
    (shuffleLoop d i arr).length = arr.length := by
  induction i generalizing arr with
  | zero => rfl
  | succ i ih => simp [shuffleLoop, ih, length_swap]

theorem shuffleLoop_perm {α : Type} (d : Draws) (i : Nat) (arr : List α) :
    (shuffleLoop d i arr).Perm arr := by
  induction i generalizing arr with
  | zero => exact List.Perm.refl _
  | succ i ih => exact (ih _).trans (swap_perm arr _ _)

theorem length_shuffleArray {α : Type} (d : Draws) (array : List α) :
    (shuffleArray d array).length = array.length :=
  length_shuffleLoop d _ array

theorem shuffleArray_perm {α : Type} (d : Draws) (array : List α) :
    (shuffleArray d array).Perm array :=
  shuffleLoop_perm d _ array

theorem getElem?_swap_of_ne {α : Type} (arr : List α) {i j m : Nat} (hi : m ≠ i) (hj : m ≠ j) :
    (swap arr i j)[m]? = arr[m]? := by
  unfold swap
  split
  · rw [List.getElem?_set_ne (Ne.symm hj), List.getElem?_set_ne (Ne.symm hi)]
  · rfl

theorem getElem?_swap_left {α : Type} (arr : List α) {i j : Nat} (hi : i < arr.length)
    (hj : j < arr.length) : (swap arr i j)[i]? = arr[j]? := by
  rw [getElem?_swap arr hi hj]
  by_cases h : i = j
  · simp [h]
  · simp [h]

theorem shuffleLoop_congr {α : Type} (d e : Draws) (i : Nat) (arr : List α)
    (h : ∀ k, 1 ≤ k → k ≤ i → d k = e k) : shuffleLoop d i arr = shuffleLoop e i arr := by
  induction i generalizing arr with
  | zero => rfl
  | succ i ih =>
    simp only [shuffleLoop]
    rw [h (i + 1) (by omega) (Nat.le_refl _)]
    exact ih _ fun k h1 h2 => h k h1 (by omega)

theorem getElem?_shuffleLoop_of_lt {α : Type} (d : Draws) (i : Nat) (arr : List α) {m : Nat}
    (hm : i < m) : (shuffleLoop d i arr)[m]? = arr[m]? := by
  induction i generalizing arr with
  | zero => rfl
  | succ i ih =>
    simp only [shuffleLoop]
    rw [ih _ (by omega)]
    have hlt := (d (i + 1)).isLt
    exact getElem?_swap_of_ne arr (by omega) (by omega)

theorem shuffleLoop_draws_eq {α : Type} (d e : Draws) (i : Nat) (arr : List α)
    (hnd : arr.Nodup) (hi : i < arr.length)
    (h : shuffleLoop d i arr = shuffleLoop e i arr) :
    ∀ k, 1 ≤ k → k ≤ i → d k = e k := by
  induction i generalizing arr with
  | zero => intro k h1 h2; omega
  | succ i ih =>
    have hd := (d (i + 1)).isLt
    have he := (e (i + 1)).isLt
    have htop : (swap arr (i + 1) (d (i + 1)).val)[i + 1]?
        = (swap arr (i + 1) (e (i + 1)).val)[i + 1]? := by
      have h' := congrArg (fun l => l[i + 1]?) h
      simp only [shuffleLoop] at h'
      rwa [getElem?_shuffleLoop_of_lt d i _ (Nat.lt_succ_self i),
        getElem?_shuffleLoop_of_lt e i _ (Nat.lt_succ_self i)] at h'
    rw [getElem?_swap_left arr hi (by omega), getElem?_swap_left arr hi (by omega),
      List.getElem?_eq_getElem (by omega), List.getElem?_eq_getElem (by omega)] at htop
    have hval : (d (i + 1)).val = (e (i + 1)).val :=
      (hnd.getElem_inj_iff).1 (Option.some.inj htop)
    have hde : d (i + 1) = e (i + 1) := Fin.ext hval
    intro k h1 h2
    by_cases hk : k = i + 1
    · subst hk; exact hde
    · simp only [shuffleLoop] at h
      rw [← hde] at h
      exact ih (swap arr (i + 1) (d (i + 1)).val)
        ((swap_perm arr _ _).nodup_iff.2 hnd) (by rw [length_swap]; omega) h k h1 (by omega)

theorem shuffleArray_toDrawSeq {α : Type} (d : Draws) (array : List α) :
    shuffleArray (d.toDrawSeq array.length).toDraws array = shuffleArray d array := by
  unfold shuffleArray
  apply shuffleLoop_congr
  intro k h1 h2
  have hk : 1 ≤ k ∧ k < array.length := by omega
  have hval : ∀ a b : Nat, a = b → (d a).val = (d b).val := by
    intro a b hab; subst hab; rfl
  apply Fin.ext
  simp only [DrawSeq.toDraws, Draws.toDrawSeq, hk, and_self, dite_true]
  exact hval _ _ (by omega)

theorem toDraws_injective_on {n : Nat} (s t : DrawSeq n)
    (h : ∀ k, 1 ≤ k → k ≤ n - 1 → s.toDraws k = t.toDraws k) : s = t := by
  funext k
  have hk := k.isLt
  have hb : 1 ≤ k.val + 1 ∧ k.val + 1 < n := by omega
  have := congrArg Fin.val (h (k.val + 1) (by omega) (by omega))
  simp only [DrawSeq.toDraws, hb, and_self, dite_true] at this
  exact Fin.ext this

theorem prod_range_add_two (m : Nat) : (∏ i in Finset.range m, (i + 2)) = (m + 1).factorial := by
  induction m with
  | zero => rfl
  | succ m ih => rw [Finset.prod_range_succ, ih, Nat.factorial_succ (m + 1)]; ring

theorem card_drawSeq (n : Nat) : Fintype.card (DrawSeq n) = n.factorial := by
  have h1 : Fintype.card (DrawSeq n) = ∏ k : Fin (n - 1), (k.val + 2) := by
    unfold DrawSeq
    rw [Fintype.card_pi]
    simp
  rw [h1, Fin.prod_univ_eq_prod_range (fun i => i + 2) (n - 1), prod_range_add_two]
  cases n with
  | zero => rfl
  | succ n => rfl

theorem shuffleArray_toDraws_injective {α : Type} (array : List α) (hnd : array.Nodup) :
    Function.Injective fun s : DrawSeq array.length => shuffleArray s.toDraws array := by
  intro s t h
  apply toDraws_injective_on
  by_cases hlen : array.length = 0
  · intro k h1 h2; omega
  · exact shuffleLoop_draws_eq s.toDraws t.toDraws (array.length - 1) array hnd (by omega) h

theorem shuffleArray_toDraws_surjective {α : Type} (array : List α) (hnd : array.Nodup)
    (p : List α) (hp : p.Perm array) :
    ∃ s : DrawSeq array.length, shuffleArray s.toDraws array = p := by
  classical
  have hsub : (Finset.univ.image fun s : DrawSeq array.length => shuffleArray s.toDraws array)
      ⊆ array.permutations.toFinset := by
    intro q hq
    obtain ⟨s, _, rfl⟩ := Finset.mem_image.1 hq
    exact List.mem_toFinset.2 (List.mem_permutations.2 (shuffleArray_perm _ _))
  have hcard : array.permutations.toFinset.card
      ≤ (Finset.univ.image fun s : DrawSeq array.length => shuffleArray s.toDraws array).card := by
    rw [Finset.card_image_of_injective _ (shuffleArray_toDraws_injective array hnd),
      List.toFinset_card_of_nodup (List.nodup_permutations array hnd),
      List.length_permutations, Finset.card_univ, card_drawSeq]
  have heq := Finset.eq_of_subset_of_card_le hsub hcard
  have hmem : p ∈ array.permutations.toFinset :=
    List.mem_toFinset.2 (List.mem_permutations.2 hp)
  rw [← heq] at hmem
  obtain ⟨s, _, hs⟩ := Finset.mem_image.1 hmem
  exact ⟨s, hs⟩

/-! ## Lemmas on the session -/

/-- The tagged options of a template, before they are shuffled. -/
theorem mem_tagged_iff (tpl : QuestionTemplate) (x : TaggedOption) :
    x ∈ (tpl.o.mapIdx fun i t => ({ t := t, c := decide ((i : Int) = tpl.a) } : TaggedOption)) ↔
      ∃ i : Nat, ∃ h : i < tpl.o.length, x = { t := tpl.o[i], c := decide ((i : Int) = tpl.a) } := by
  rw [List.mem_mapIdx]
  constructor
  · rintro ⟨i, h, rfl⟩
    exact ⟨i, h, rfl⟩
  · rintro ⟨i, h, rfl⟩
    exact ⟨i, h, rfl⟩

theorem findIndex_eq_of_exists {α : Type} (p : α → Bool) (l : List α) (h : ∃ x ∈ l, p x = true) :
    ∃ n : Nat, ∃ hn : n < l.length, findIndex p l = (n : Int) ∧ p l[n] = true := by
  have hsome := List.findIdx?_eq_some_of_exists h
  obtain ⟨hlt, hp, _⟩ := List.findIdx?_eq_some_iff_getElem.1 hsome
  exact ⟨l.findIdx p, hlt, by simp [findIndex, hsome], hp⟩

theorem findIndex_eq_neg_one {α : Type} (p : α → Bool) (l : List α)
    (h : ∀ x ∈ l, p x = false) : findIndex p l = -1 := by
  have hnone : l.findIdx? p = none := by
    rw [List.findIdx?_eq_none_iff]
    exact h
  simp [findIndex, hnone]

theorem buildItem_correct (d : Draws) (tpl : QuestionTemplate) (m : Nat) (ha : tpl.a = (m : Int))
    (hm : m < tpl.o.length) :
    ∃ n : Nat, (buildItem d tpl).a = (n : Int) ∧
      (buildItem d tpl).opts[n]? = some tpl.o[m] := by
  have hperm := shuffleArray_perm d
    (tpl.o.mapIdx fun i t => ({ t := t, c := decide ((i : Int) = tpl.a) } : TaggedOption))
  obtain ⟨n, hn, hfind, hc⟩ := findIndex_eq_of_exists (fun x : TaggedOption => x.c)
    (shuffleArray d
      (tpl.o.mapIdx fun i t => ({ t := t, c := decide ((i : Int) = tpl.a) } : TaggedOption)))
    ⟨{ t := tpl.o[m], c := decide ((m : Int) = tpl.a) },
      hperm.mem_iff.2 ((mem_tagged_iff tpl _).2 ⟨m, hm, rfl⟩), by simp [ha]⟩
  refine ⟨n, hfind, ?_⟩
  obtain ⟨i, hi, hx⟩ := (mem_tagged_iff tpl _).1 (hperm.mem_iff.1 (List.getElem_mem hn))
  rw [hx] at hc
  have him : i = m := by
    have : (i : Int) = tpl.a := by simpa using hc
    omega
  subst him
  simp only [buildItem, sanitizeText, List.getElem?_map, List.getElem?_eq_getElem hn,
    Option.map_some', hx]

theorem length_startQuiz_items (bank : List QuestionTemplate) (optDraws : Nat → Draws)
    (itemDraws : Draws) (s : QuizState) :
    (startQuiz bank optDraws itemDraws s).items.length = bank.length := by
  simp [startQuiz, length_shuffleArray]

theorem startQuiz_items_perm (bank : List QuestionTemplate) (optDraws : Nat → Draws)
    (itemDraws : Draws) (s : QuizState) :
    (startQuiz bank optDraws itemDraws s).items.Perm
      (bank.mapIdx fun k tpl => buildItem (optDraws k) tpl) :=
  shuffleArray_perm _ _

theorem startQuiz_item_origin (bank : List QuestionTemplate) (optDraws : Nat → Draws)
    (itemDraws : Draws) (s : QuizState) (item : QuizItem)
    (hmem : item ∈ (startQuiz bank optDraws itemDraws s).items) :
    ∃ k : Nat, ∃ h : k < bank.length, item = buildItem (optDraws k) bank[k] := by
  have h1 := (startQuiz_items_perm bank optDraws itemDraws s).mem_iff.1 hmem
  obtain ⟨k, hk, rfl⟩ := List.mem_mapIdx.1 h1
  exact ⟨k, hk, rfl⟩

theorem startQuiz_pick_none (bank : List QuestionTemplate) (optDraws : Nat → Draws)
    (itemDraws : Draws) (s : QuizState) (item : QuizItem)
    (hmem : item ∈ (startQuiz bank optDraws itemDraws s).items) : item.pick = none := by
  obtain ⟨k, hk, rfl⟩ := startQuiz_item_origin bank optDraws itemDraws s item hmem
  rfl

theorem quizQuestions_wellFormed :
    ∀ tpl ∈ quizQuestions, 0 ≤ tpl.a ∧ tpl.a < (tpl.o.length : Int) := by
  decide

theorem buildItem_a_out_of_range (d : Draws) (tpl : QuestionTemplate)
    (hout : tpl.a < 0 ∨ (tpl.o.length : Int) ≤ tpl.a) : (buildItem d tpl).a = -1 := by
  have hperm := shuffleArray_perm d
    (tpl.o.mapIdx fun i t => ({ t := t, c := decide ((i : Int) = tpl.a) } : TaggedOption))
  apply findIndex_eq_neg_one
  intro x hx
  obtain ⟨i, hi, rfl⟩ := (mem_tagged_iff tpl x).1 (hperm.mem_iff.1 hx)
  have hne : (i : Int) ≠ tpl.a := by omega
  simp [hne]

theorem run_cons (enabled : Event → QuizState → Bool) (bank : List QuestionTemplate)
    (e : Event) (events : List Event) (s : QuizState) :
    run enabled bank (e :: events) s
      = run enabled bank events (if enabled e s = true then handle bank e s else s) := rfl

/-- A property that holds of the first state and is kept by every enabled
handler call holds after every sequence of events. -/
theorem run_invariant (enabled : Event → QuizState → Bool) (bank : List QuestionTemplate)
    (P : QuizState → Prop)
    (hstep : ∀ e s, P s → enabled e s = true → P (handle bank e s))
    (events : List Event) (s : QuizState) (hs : P s) : P (run enabled bank events s) := by
  induction events generalizing s with
  | nil => exact hs
  | cons e events ih =>
    rw [run_cons]
    by_cases hen : enabled e s = true
    · rw [if_pos hen]
      exact ih _ (hstep e s hs hen)
    · rw [if_neg hen]
      exact ih _ hs

theorem correctCount_startQuiz (bank : List QuestionTemplate) (optDraws : Nat → Draws)
    (itemDraws : Draws) (s : QuizState) :
    correctCount (startQuiz bank optDraws itemDraws s).items = 0 := by
  unfold correctCount
  rw [List.countP_eq_zero]
  intro it hit
  simp [startQuiz_pick_none bank optDraws itemDraws s it hit]

theorem correctCount_set (items : List QuizItem) (idx : Nat) (item : QuizItem)
    (selectedIdx : Int) (hcur : items[idx]? = some item) (hpick : item.pick = none) :
    correctCount (items.set idx { item with pick := some selectedIdx })
      = correctCount items + (if selectedIdx = item.a then 1 else 0) := by
  have hlt : idx < items.length := by
    by_contra hge
    rw [List.getElem?_eq_none (Nat.le_of_not_lt hge)] at hcur
    exact Option.noConfusion hcur
  have hget : items[idx] = item := by
    rw [List.getElem?_eq_getElem hlt] at hcur
    exact Option.some.inj hcur
  unfold correctCount
  rw [List.countP_set _ _ _ _ hlt, hget]
  simp [hpick]

/-- The property behind C4: in section start there are no items, and outside
it the score is the number of correct picks.  Every handler keeps it, provided
`goToNextQuestion` does not run in section start. -/
theorem scoreCounts_step (bank : List QuestionTemplate) (e : Event) (s : QuizState)
    (hs : (s.currentSection = .start → s.items = []) ∧
      (s.currentSection ≠ .start → s.score = correctCount s.items))
    (hen : e = Event.goToNextQuestion → s.currentSection ≠ .start) :
    ((handle bank e s).currentSection = .start → (handle bank e s).items = []) ∧
      ((handle bank e s).currentSection ≠ .start →
        (handle bank e s).score = correctCount (handle bank e s).items) := by
  obtain ⟨h1, h2⟩ := hs
  have hstart : ∀ od id,
      ((startQuiz bank od id s).currentSection = .start → (startQuiz bank od id s).items = []) ∧
      ((startQuiz bank od id s).currentSection ≠ .start →
        (startQuiz bank od id s).score = correctCount (startQuiz bank od id s).items) := by
    intro od id
    refine ⟨fun h => ?_, fun _ => ?_⟩
    · exact absurd h (by simp [startQuiz])
    · rw [correctCount_startQuiz]
      rfl
  have hnext : s.currentSection ≠ .start →
      ((goToNextQuestion s).currentSection = .start → (goToNextQuestion s).items = []) ∧
      ((goToNextQuestion s).currentSection ≠ .start →
        (goToNextQuestion s).score = correctCount (goToNextQuestion s).items) := by
    intro hne
    unfold goToNextQuestion
    split
    · exact ⟨fun h => absurd h hne, fun _ => h2 hne⟩
    · exact ⟨fun h => absurd h (by simp), fun _ => h2 hne⟩
  have hrestart :
      ((restartQuiz s).currentSection = .start → (restartQuiz s).items = []) ∧
      ((restartQuiz s).currentSection ≠ .start →
        (restartQuiz s).score = correctCount (restartQuiz s).items) :=
    ⟨fun _ => rfl, fun h => absurd rfl h⟩
  cases e with
  | startQuiz od id => exact hstart od id
  | chooseOption selectedIdx =>
    simp only [handle, chooseOption]
    cases hcur : s.items[s.currentQuestionIdx]? with
    | none => exact ⟨h1, h2⟩
    | some item =>
      by_cases hpick : item.pick = none
      · simp only [hpick, ne_eq, not_true_eq_false, ↓reduceIte]
        refine ⟨fun h => ?_, fun h => ?_⟩
        · have hnil := h1 h
          rw [hnil] at hcur
          simp at hcur
        · rw [correctCount_set s.items _ item selectedIdx hcur hpick, ← h2 h]
          split <;> rfl
      · simp only [ne_eq, hpick, not_false_eq_true, ↓reduceIte]
        exact ⟨h1, h2⟩
  | goToNextQuestion =>
    exact hnext (hen rfl)
  | reviewPrev => exact ⟨h1, h2⟩
  | reviewNext => exact ⟨h1, h2⟩
  | restartQuiz => exact hrestart
  | keyDown key focus od id =>
    simp only [handle, handleKeyDown]
    split
    · split
      · exact hstart od id
      · rename_i hne
        split
        · exact hnext hne
        · split
          · exact hrestart
          · exact ⟨h1, h2⟩
    · split
      · split
        · exact ⟨h1, h2⟩
        · split
          · exact ⟨h1, h2⟩
          · exact ⟨h1, h2⟩
      · exact ⟨h1, h2⟩

theorem chooseOption_of_unset (s : QuizState) (item : QuizItem) (selectedIdx : Int)
    (hcur : s.items[s.currentQuestionIdx]? = some item) (hpick : item.pick = none) :
    chooseOption selectedIdx s =
      { s with
        items := s.items.set s.currentQuestionIdx { item with pick := some selectedIdx }
        score := if selectedIdx = item.a then s.score + 1 else s.score } := by
  simp [chooseOption, hcur, hpick]

theorem chooseOption_of_set (s : QuizState) (item : QuizItem) (selectedIdx : Int)
    (hcur : s.items[s.currentQuestionIdx]? = some item) (hpick : item.pick ≠ none) :
    chooseOption selectedIdx s = s := by
  simp [chooseOption, hcur, hpick]

theorem length_chooseOption_items (selectedIdx : Int) (s : QuizState) :
    (chooseOption selectedIdx s).items.length = s.items.length := by
  unfold chooseOption
  split
  · rfl
  · split
    · rfl
    · simp

/-- The end-to-end run on a bank of two questions: start, the correct answer to
the first question shown, one more answer, two advances. -/
theorem endToEnd_two_questions (bank : List QuestionTemplate) (optDraws : Nat → Draws)
    (itemDraws : Draws) (j : Int) (item : QuizItem) (hbank : bank.length = 2)
    (hfirst : (startQuiz bank optDraws itemDraws initialState).items[0]? = some item) :
    (goToNextQuestion (goToNextQuestion (chooseOption j (chooseOption item.a
        (startQuiz bank optDraws itemDraws initialState))))).currentSection = .score ∧
      (goToNextQuestion (goToNextQuestion (chooseOption j (chooseOption item.a
        (startQuiz bank optDraws itemDraws initialState))))).score = 1 ∧
      (goToNextQuestion (goToNextQuestion (chooseOption j (chooseOption item.a
        (startQuiz bank optDraws itemDraws initialState))))).items.length = 2 := by
  have hlen := length_startQuiz_items bank optDraws itemDraws initialState
  rw [hbank] at hlen
  have hpick : item.pick = none :=
    startQuiz_pick_none bank optDraws itemDraws initialState item (List.getElem?_mem hfirst)
  have hidx : (startQuiz bank optDraws itemDraws initialState).currentQuestionIdx = 0 := rfl
  have hscore : (startQuiz bank optDraws itemDraws initialState).score = 0 := rfl
  have hsec : (startQuiz bank optDraws itemDraws initialState).currentSection = .quiz := rfl
  generalize startQuiz bank optDraws itemDraws initialState = s1 at hlen hfirst hidx hscore hsec
  have hcur : s1.items[s1.currentQuestionIdx]? = some item := by rw [hidx]; exact hfirst
  have h2 := chooseOption_of_unset s1 item item.a hcur hpick
  have hcur2 : (chooseOption item.a s1).items[(chooseOption item.a s1).currentQuestionIdx]?
      = some { item with pick := some item.a } := by
    rw [h2]
    simp [hidx, List.getElem?_set, hlen]
  have h3 := chooseOption_of_set (chooseOption item.a s1) _ j hcur2 (by simp)
  rw [h3, h2]
  simp [goToNextQuestion, hidx, hlen, hscore]

theorem chooseOption_fields (selectedIdx : Int) (s : QuizState) :
    (chooseOption selectedIdx s).currentSection = s.currentSection ∧
      (chooseOption selectedIdx s).currentQuestionIdx = s.currentQuestionIdx ∧
      (chooseOption selectedIdx s).reviewIdx = s.reviewIdx := by
  unfold chooseOption
  split
  · exact ⟨rfl, rfl, rfl⟩
  · split
    · exact ⟨rfl, rfl, rfl⟩
    · exact ⟨rfl, rfl, rfl⟩

/-- The property behind C9: the index shown in section quiz and the index
shown in section score are within the item list. -/
theorem indexInBounds_step (bank : List QuestionTemplate) (hbank : bank ≠ []) (e : Event)
    (s : QuizState)
    (hs : (s.currentSection = .quiz → s.currentQuestionIdx < s.items.length) ∧
      (s.currentSection = .score →
        0 ≤ s.reviewIdx ∧ s.reviewIdx ≤ (s.items.length : Int) - 1))
    (hen : uiEnabled e s = true) :
    ((handle bank e s).currentSection = .quiz →
        (handle bank e s).currentQuestionIdx < (handle bank e s).items.length) ∧
      ((handle bank e s).currentSection = .score →
        0 ≤ (handle bank e s).reviewIdx ∧
          (handle bank e s).reviewIdx ≤ ((handle bank e s).items.length : Int) - 1) := by
  obtain ⟨h1, h2⟩ := hs
  have hpos : 0 < bank.length := List.length_pos.2 hbank
  have hstart : ∀ od id,
      ((startQuiz bank od id s).currentSection = .quiz →
        (startQuiz bank od id s).currentQuestionIdx < (startQuiz bank od id s).items.length) ∧
      ((startQuiz bank od id s).currentSection = .score →
        0 ≤ (startQuiz bank od id s).reviewIdx ∧
          (startQuiz bank od id s).reviewIdx
            ≤ ((startQuiz bank od id s).items.length : Int) - 1) := by
    intro od id
    refine ⟨fun _ => ?_, fun h => ?_⟩
    · rw [length_startQuiz_items]
      exact hpos
    · exact absurd h (by simp [startQuiz])
  have hnext : s.currentSection = .quiz →
      ((goToNextQuestion s).currentSection = .quiz →
        (goToNextQuestion s).currentQuestionIdx < (goToNextQuestion s).items.length) ∧
      ((goToNextQuestion s).currentSection = .score →
        0 ≤ (goToNextQuestion s).reviewIdx ∧
          (goToNextQuestion s).reviewIdx ≤ ((goToNextQuestion s).items.length : Int) - 1) := by
    intro hq
    have hlt := h1 hq
    unfold goToNextQuestion
    split
    · rename_i hlt2
      refine ⟨fun _ => hlt2, fun h => ?_⟩
      simp [hq] at h
    · refine ⟨fun h => ?_, fun _ => ?_⟩
      · simp at h
      · simp only
        omega
  have hrestart :
      ((restartQuiz s).currentSection = .quiz →
        (restartQuiz s).currentQuestionIdx < (restartQuiz s).items.length) ∧
      ((restartQuiz s).currentSection = .score →
        0 ≤ (restartQuiz s).reviewIdx ∧
          (restartQuiz s).reviewIdx ≤ ((restartQuiz s).items.length : Int) - 1) :=
    ⟨fun h => absurd h (by simp [restartQuiz]), fun h => absurd h (by simp [restartQuiz])⟩
  cases e with
  | startQuiz od id => exact hstart od id
  | chooseOption selectedIdx =>
    obtain ⟨e1, e2, e3⟩ := chooseOption_fields selectedIdx s
    simp only [handle]
    rw [e1, e2, e3, length_chooseOption_items]
    exact ⟨h1, h2⟩
  | goToNextQuestion =>
    have hq : s.currentSection = .quiz := by
      simp only [uiEnabled, Bool.and_eq_true, decide_eq_true_eq] at hen
      exact hen.1
    exact hnext hq
  | reviewPrev =>
    have hsc : s.currentSection = .score := by simpa [uiEnabled] using hen
    obtain ⟨h3, h4⟩ := h2 hsc
    refine ⟨fun h => ?_, fun _ => ?_⟩
    · simp [handle, reviewPrev, hsc] at h
    · simp only [handle, reviewPrev]
      omega
  | reviewNext =>
    have hsc : s.currentSection = .score := by simpa [uiEnabled] using hen
    obtain ⟨h3, h4⟩ := h2 hsc
    refine ⟨fun h => ?_, fun _ => ?_⟩
    · simp [handle, reviewNext, hsc] at h
    · simp only [handle, reviewNext]
      omega
  | restartQuiz => exact hrestart
  | keyDown key focus od id =>
    simp only [handle, handleKeyDown]
    split
    · split
      · exact hstart od id
      · split
        · rename_i hq
          exact hnext hq.1
        · split
          · exact hrestart
          · exact ⟨h1, h2⟩
    · split
      · rename_i hsc
        obtain ⟨h3, h4⟩ := h2 hsc
        split
        · rename_i hl
          refine ⟨fun h => ?_, fun _ => ?_⟩
          · simp [hsc] at h
          · simp only
            omega
        · split
          · rename_i hr
            refine ⟨fun h => ?_, fun _ => ?_⟩
            · simp [hsc] at h
            · simp only
              omega
          · exact ⟨h1, h2⟩
      · exact ⟨h1, h2⟩

theorem uiEnabled_goToNextQuestion (s : QuizState)
    (hen : uiEnabled Event.goToNextQuestion s = true) : s.currentSection = .quiz := by
  simp only [uiEnabled, Bool.and_eq_true, decide_eq_true_eq] at hen
  exact hen.1

/-- In section quiz the current index stays within the item list, whichever
handler runs. -/
theorem quizIndex_step (bank : List QuestionTemplate) (hbank : bank ≠ []) (e : Event)
    (s : QuizState) (hs : s.currentSection = .quiz → s.currentQuestionIdx < s.items.length) :
    (handle bank e s).currentSection = .quiz →
      (handle bank e s).currentQuestionIdx < (handle bank e s).items.length := by
  have hpos : 0 < bank.length := List.length_pos.2 hbank
  have hstart : ∀ od id, (startQuiz bank od id s).currentSection = .quiz →
      (startQuiz bank od id s).currentQuestionIdx < (startQuiz bank od id s).items.length := by
    intro od id _
    rw [length_startQuiz_items]
    exact hpos
  have hnext : (goToNextQuestion s).currentSection = .quiz →
      (goToNextQuestion s).currentQuestionIdx < (goToNextQuestion s).items.length := by
    unfold goToNextQuestion
    split
    · rename_i hlt
      exact fun _ => hlt
    · intro h
      simp at h
  have hrestart : (restartQuiz s).currentSection = .quiz →
      (restartQuiz s).currentQuestionIdx < (restartQuiz s).items.length :=
    fun h => absurd h (by simp [restartQuiz])
  cases e with
  | startQuiz od id => exact hstart od id
  | chooseOption selectedIdx =>
    obtain ⟨e1, e2, _⟩ := chooseOption_fields selectedIdx s
    simp only [handle]
    rw [e1, e2, length_chooseOption_items]
    exact hs
  | goToNextQuestion => exact hnext
  | reviewPrev => exact hs
  | reviewNext => exact hs
  | restartQuiz => exact hrestart
  | keyDown key focus od id =>
    simp only [handle, handleKeyDown]
    split
    · split
      · exact hstart od id
      · split
        · exact hnext
        · split
          · exact hrestart
          · exact hs
    · split
      · split
        · exact hs
        · split
          · exact hs
          · exact hs
      · exact hs

/-- The two branches of `goToNextQuestion` on a state in section quiz that
has a current question. -/
theorem goToNextQuestion_of_inBounds (s : QuizState) (hsec : s.currentSection = .quiz)
    (hlt : s.currentQuestionIdx < s.items.length) :
    (s.currentQuestionIdx + 1 = s.items.length →
        (goToNextQuestion s).currentSection = .score ∧ (goToNextQuestion s).reviewIdx = 0) ∧
      (s.currentQuestionIdx + 1 ≠ s.items.length →
        (goToNextQuestion s).currentQuestionIdx = s.currentQuestionIdx + 1 ∧
          (goToNextQuestion s).currentSection = .quiz) ∧
      (goToNextQuestion s).items = s.items ∧ (goToNextQuestion s).score = s.score := by
  unfold goToNextQuestion
  refine ⟨?_, ?_, ?_, ?_⟩
  · intro h
    have h' : ¬ s.currentQuestionIdx + 1 < s.items.length := by omega
    simp [h']
  · intro h
    have h' : s.currentQuestionIdx + 1 < s.items.length := by omega
    simp [h', hsec]
  · split <;> rfl
  · split <;> rfl

/-- The end-to-end run as the page plays it on a bank of two questions: start,
the correct answer to the first question shown, advance, an incorrect answer
to the second question shown, advance. -/
theorem endToEnd_answer_both (bank : List QuestionTemplate) (optDraws : Nat → Draws)
    (itemDraws : Draws) (j : Int) (item0 item1 : QuizItem) (hbank : bank.length = 2)
    (h0 : (startQuiz bank optDraws itemDraws initialState).items[0]? = some item0)
    (h1 : (startQuiz bank optDraws itemDraws initialState).items[1]? = some item1)
    (ha : 0 ≤ item0.a ∧ item0.a < (item0.opts.length : Int))
    (hj : 0 ≤ j ∧ j < (item1.opts.length : Int)) (hne : j ≠ item1.a) :
    run uiEnabled bank
        [.startQuiz optDraws itemDraws, .chooseOption item0.a, .goToNextQuestion,
          .chooseOption j, .goToNextQuestion] initialState
      = { items := [{ item0 with pick := some item0.a }, { item1 with pick := some j }]
          currentQuestionIdx := 1, score := 1, reviewIdx := 0, currentSection := .score } := by
  have hlen := length_startQuiz_items bank optDraws itemDraws initialState
  rw [hbank] at hlen
  have hp0 : item0.pick = none :=
    startQuiz_pick_none bank optDraws itemDraws initialState item0 (List.getElem?_mem h0)
  have hp1 : item1.pick = none :=
    startQuiz_pick_none bank optDraws itemDraws initialState item1 (List.getElem?_mem h1)
  have hs1 : startQuiz bank optDraws itemDraws initialState
      = { items := [item0, item1], currentQuestionIdx := 0, score := 0, reviewIdx := 0,
          currentSection := .quiz } := by
    have hitems : (startQuiz bank optDraws itemDraws initialState).items = [item0, item1] := by
      apply List.ext_getElem?
      intro n
      match n with
      | 0 => simpa using h0
      | 1 => simpa using h1
      | n + 2 =>
        rw [List.getElem?_eq_none (by omega)]
        simp
    rw [← hitems]
    rfl
  have hj' : ¬ j = item1.a := hne
  simp only [run, List.foldl_cons, List.foldl_nil, handle]
  have e1 : uiEnabled (.startQuiz optDraws itemDraws) initialState = true := rfl
  rw [if_pos e1, hs1]
  simp [uiEnabled, chooseOption, goToNextQuestion, hp0, hp1, ha.1, ha.2, hj.1, hj.2, hj']

/-! ## Claims -/

/-- C1: for every input list and every outcome of the random draws,
`shuffleArray` returns a list of the same length that is a permutation of the
input; on the empty list and on a one-element list it returns the input. -/
theorem shuffleArray_is_permutation {α : Type} (d : Draws) :
    (∀ array : List α,
        (shuffleArray d array).length = array.length ∧ (shuffleArray d array).Perm array) ∧
      shuffleArray d ([] : List α) = [] ∧
      ∀ x : α, shuffleArray d [x] = [x] :=
  ⟨fun array => ⟨length_shuffleArray d array, shuffleArray_perm d array⟩, rfl, fun _ => rfl⟩

/-- C2: for every outcome of the random draws, after `startQuiz` on the fixed
question bank there are as many items as templates, and every item was built
from a template of the bank in such a way that the option text at the item's
correct-option index is the option text the template marks correct
(`item.opts[item.a] = template.o[template.a]`). -/
theorem startQuiz_correct_option (optDraws : Nat → Draws) (itemDraws : Draws) (s : QuizState) :
    (startQuiz quizQuestions optDraws itemDraws s).items.length = quizQuestions.length ∧
      ∀ item ∈ (startQuiz quizQuestions optDraws itemDraws s).items,
        ∃ k : Nat, ∃ tpl : QuestionTemplate,
          quizQuestions[k]? = some tpl ∧ item = buildItem (optDraws k) tpl ∧ item.q = tpl.q ∧
          ∃ n m : Nat, item.a = (n : Int) ∧ tpl.a = (m : Int) ∧
            ∃ text : String, item.opts[n]? = some text ∧ tpl.o[m]? = some text := by
  refine ⟨length_startQuiz_items _ _ _ _, ?_⟩
  intro item hmem
  obtain ⟨k, hk, rfl⟩ := startQuiz_item_origin quizQuestions optDraws itemDraws s item hmem
  obtain ⟨h0, h1⟩ := quizQuestions_wellFormed quizQuestions[k] (List.getElem_mem hk)
  have ha : quizQuestions[k].a = ((quizQuestions[k].a.toNat : Nat) : Int) :=
    (Int.toNat_of_nonneg h0).symm
  have hm : quizQuestions[k].a.toNat < quizQuestions[k].o.length := by omega
  obtain ⟨n, hn, hopt⟩ := buildItem_correct (optDraws k) quizQuestions[k] _ ha hm
  exact ⟨k, quizQuestions[k], List.getElem?_eq_getElem hk, rfl, rfl, n, _, hn, ha, _, hopt,
    List.getElem?_eq_getElem hm⟩

/-- Witness for C2: the item built from the third template under the draws that
always pick index `0`. -/
theorem startQuiz_correct_option_witness :
    ∃ k : Nat, ∃ tpl : QuestionTemplate,
      quizQuestions[k]? = some tpl ∧
        buildItem Draws.zero ⟨"Which Vikings player had the longest interception return in the 1970 season?",
          ["Paul Krause", "Ed Sharockman", "Charlie West", "Karl Kassulke"], 1⟩
          = buildItem Draws.zero tpl ∧
        (buildItem Draws.zero ⟨"Which Vikings player had the longest interception return in the 1970 season?",
          ["Paul Krause", "Ed Sharockman", "Charlie West", "Karl Kassulke"], 1⟩).q = tpl.q ∧
        ∃ n m : Nat,
          (buildItem Draws.zero ⟨"Which Vikings player had the longest interception return in the 1970 season?",
            ["Paul Krause", "Ed Sharockman", "Charlie West", "Karl Kassulke"], 1⟩).a = (n : Int) ∧
          tpl.a = (m : Int) ∧
          ∃ text : String,
            (buildItem Draws.zero ⟨"Which Vikings player had the longest interception return in the 1970 season?",
              ["Paul Krause", "Ed Sharockman", "Charlie West", "Karl Kassulke"], 1⟩).opts[n]? = some text ∧
            tpl.o[m]? = some text :=
  (startQuiz_correct_option (fun _ => Draws.zero) Draws.zero initialState).2 _
    ((startQuiz_items_perm quizQuestions (fun _ => Draws.zero) Draws.zero initialState).mem_iff.2
      (List.mem_mapIdx.2 ⟨2, by decide, rfl⟩))

/-- C3: with the current index in bounds, when the current item's pick is unset
`chooseOption i` sets that item's pick to `i` (every other item and field is
left as it is) and increases the score by exactly 1 if `i` is the
correct-option index, leaving it unchanged otherwise; and once the pick is set,
`chooseOption j` leaves the whole state, so every pick and the score, unchanged
for every `j`.  This holds in every section and for every integer `i`, so in
particular in section quiz for `i` within the current item's options. -/
theorem chooseOption_sets_pick_once (s : QuizState) (item : QuizItem) (i j : Int)
    (hcur : s.items[s.currentQuestionIdx]? = some item) :
    (item.pick = none →
        chooseOption i s =
            { s with
              items := s.items.set s.currentQuestionIdx { item with pick := some i }
              score := if i = item.a then s.score + 1 else s.score } ∧
          (chooseOption i s).items[s.currentQuestionIdx]? = some { item with pick := some i } ∧
          (i = item.a → (chooseOption i s).score = s.score + 1) ∧
          (i ≠ item.a → (chooseOption i s).score = s.score) ∧
          chooseOption j (chooseOption i s) = chooseOption i s) ∧
      (item.pick ≠ none → chooseOption j s = s) := by
  have hlt : s.currentQuestionIdx < s.items.length := by
    by_contra hge
    rw [List.getElem?_eq_none (Nat.le_of_not_lt hge)] at hcur
    exact Option.noConfusion hcur
  constructor
  · intro hpick
    have hstep : chooseOption i s =
        { s with
          items := s.items.set s.currentQuestionIdx { item with pick := some i }
          score := if i = item.a then s.score + 1 else s.score } := by
      simp [chooseOption, hcur, hpick]
    refine ⟨hstep, ?_, ?_, ?_, ?_⟩
    · rw [hstep]
      simp [List.getElem?_set, hlt]
    · intro h
      rw [hstep]
      simp [h]
    · intro h
      rw [hstep]
      simp [h]
    · rw [hstep]
      simp [chooseOption, List.getElem?_set, hlt]
  · intro hpick
    simp [chooseOption, hcur, hpick]

/-- Witness for C3: the first option of the one-item state, then the second. -/
theorem chooseOption_sets_pick_once_witness :
    (chooseOption 0 oneItemState).items
        = [{ q := "Q", opts := ["x", "y"], a := 0, pick := some 0 }] ∧
      (chooseOption 0 oneItemState).score = 1 ∧
      chooseOption 1 (chooseOption 0 oneItemState) = chooseOption 0 oneItemState :=
  have h := (chooseOption_sets_pick_once oneItemState
    { q := "Q", opts := ["x", "y"], a := 0, pick := none } 0 1 rfl).1 rfl
  ⟨by rw [h.1]; rfl, h.2.2.1 rfl, h.2.2.2.2⟩

/-- C4: on every bank, in every state reached from the initial state by a
sequence of the calls the page makes (`startQuiz`, `chooseOption`,
`goToNextQuestion`, review prev/next, `restartQuiz` and key presses, each
where its call site allows it), whenever the section is quiz or score the
score equals the number of items whose pick equals their correct-option index.
In particular, on a bank of two questions, start, the correct answer to the
first question shown, an advance, an incorrect answer to the second question
shown and an advance end with section score, score 1 and 2 items; and so do
the handlers called in the order start, correct answer, further answer,
advance, advance, where the further answer meets the question already answered
and is ignored. -/
theorem score_counts_correct_picks (bank : List QuestionTemplate) :
    (∀ events : List Event,
        (run uiEnabled bank events initialState).currentSection = .quiz ∨
            (run uiEnabled bank events initialState).currentSection = .score →
          (run uiEnabled bank events initialState).score
            = correctCount (run uiEnabled bank events initialState).items) ∧
      (∀ (optDraws : Nat → Draws) (itemDraws : Draws) (j : Int) (item0 item1 : QuizItem),
        bank.length = 2 →
        (startQuiz bank optDraws itemDraws initialState).items[0]? = some item0 →
        (startQuiz bank optDraws itemDraws initialState).items[1]? = some item1 →
        (0 ≤ item0.a ∧ item0.a < (item0.opts.length : Int)) →
        (0 ≤ j ∧ j < (item1.opts.length : Int)) →
        j ≠ item1.a →
        (run uiEnabled bank
            [.startQuiz optDraws itemDraws, .chooseOption item0.a, .goToNextQuestion,
              .chooseOption j, .goToNextQuestion] initialState).currentSection = .score ∧
          (run uiEnabled bank
            [.startQuiz optDraws itemDraws, .chooseOption item0.a, .goToNextQuestion,
              .chooseOption j, .goToNextQuestion] initialState).score = 1 ∧
          (run uiEnabled bank
            [.startQuiz optDraws itemDraws, .chooseOption item0.a, .goToNextQuestion,
              .chooseOption j, .goToNextQuestion] initialState).items.length = 2 ∧
          (run uiEnabled bank
            [.startQuiz optDraws itemDraws, .chooseOption item0.a, .goToNextQuestion,
              .chooseOption j, .goToNextQuestion] initialState).items
            = [{ item0 with pick := some item0.a }, { item1 with pick := some j }]) ∧
      ∀ (optDraws : Nat → Draws) (itemDraws : Draws) (j : Int) (item : QuizItem),
        bank.length = 2 →
        (startQuiz bank optDraws itemDraws initialState).items[0]? = some item →
        (goToNextQuestion (goToNextQuestion (chooseOption j (chooseOption item.a
            (startQuiz bank optDraws itemDraws initialState))))).currentSection = .score ∧
          (goToNextQuestion (goToNextQuestion (chooseOption j (chooseOption item.a
            (startQuiz bank optDraws itemDraws initialState))))).score = 1 ∧
          (goToNextQuestion (goToNextQuestion (chooseOption j (chooseOption item.a
            (startQuiz bank optDraws itemDraws initialState))))).items.length = 2 := by
  refine ⟨fun events hsec => ?_, ?_, fun optDraws itemDraws j item hbank hfirst =>
    endToEnd_two_questions bank optDraws itemDraws j item hbank hfirst⟩
  · have hinv := run_invariant uiEnabled bank
      (fun s => (s.currentSection = .start → s.items = []) ∧
        (s.currentSection ≠ .start → s.score = correctCount s.items))
      (fun e s hs hen => scoreCounts_step bank e s hs (fun he => by
        subst he
        rw [uiEnabled_goToNextQuestion s hen]
        decide))
      events initialState ⟨fun _ => rfl, fun h => absurd rfl h⟩
    apply hinv.2
    intro hst
    rw [hst] at hsec
    revert hsec
    decide
  · intro optDraws itemDraws j item0 item1 hbank h0 h1 ha hj hne
    rw [endToEnd_answer_both bank optDraws itemDraws j item0 item1 hbank h0 h1 ha hj hne]
    exact ⟨rfl, rfl, rfl, rfl⟩


/-- Witness for C4 on the two-question bank under the draws that always pick
index `0`: the second question is shown first with its correct option at
index `0`, the first question follows with its correct option at index `1`;
answering `0` to both is one correct and one incorrect pick. -/
theorem score_counts_correct_picks_witness :
    (run uiEnabled twoQuestionBank
        [.startQuiz (fun _ => Draws.zero) Draws.zero, .chooseOption 0, .goToNextQuestion,
          .chooseOption 0, .goToNextQuestion] initialState).currentSection = .score ∧
      (run uiEnabled twoQuestionBank
        [.startQuiz (fun _ => Draws.zero) Draws.zero, .chooseOption 0, .goToNextQuestion,
          .chooseOption 0, .goToNextQuestion] initialState).score = 1 ∧
      (run uiEnabled twoQuestionBank
        [.startQuiz (fun _ => Draws.zero) Draws.zero, .chooseOption 0, .goToNextQuestion,
          .chooseOption 0, .goToNextQuestion] initialState).items
        = [{ q := "Q2", opts := ["d", "c"], a := 0, pick := some 0 },
            { q := "Q1", opts := ["b", "a"], a := 1, pick := some 0 }] ∧
      correctCount (run uiEnabled twoQuestionBank
        [.startQuiz (fun _ => Draws.zero) Draws.zero, .chooseOption 0, .goToNextQuestion,
          .chooseOption 0, .goToNextQuestion] initialState).items = 1 :=
  have h := (score_counts_correct_picks twoQuestionBank).2.1 (fun _ => Draws.zero) Draws.zero 0
    { q := "Q2", opts := ["d", "c"], a := 0, pick := none }
    { q := "Q1", opts := ["b", "a"], a := 1, pick := none }
    rfl (by decide) (by decide) (by decide) (by decide) (by decide)
  ⟨h.1, h.2.1, h.2.2.2,
    ((score_counts_correct_picks twoQuestionBank).1 _ (Or.inr h.1)).symm.trans h.2.1⟩

/-- C5: for every state in section quiz that has a current question, and so
for every state in section quiz that any sequence of handler calls reaches
from the initial state on the fixed bank: if the current question is the last
one (`currentQuestionIdx + 1 = items.length`), `goToNextQuestion` sets the
section to score and the review index to 0; otherwise it increases
`currentQuestionIdx` by exactly 1 and leaves the section as quiz.  In both
cases the items and the score are unchanged. -/
theorem goToNextQuestion_last_or_next :
    (∀ s : QuizState, s.currentSection = .quiz → s.currentQuestionIdx < s.items.length →
        (s.currentQuestionIdx + 1 = s.items.length →
          (goToNextQuestion s).currentSection = .score ∧ (goToNextQuestion s).reviewIdx = 0) ∧
        (s.currentQuestionIdx + 1 ≠ s.items.length →
          (goToNextQuestion s).currentQuestionIdx = s.currentQuestionIdx + 1 ∧
            (goToNextQuestion s).currentSection = .quiz) ∧
        (goToNextQuestion s).items = s.items ∧ (goToNextQuestion s).score = s.score) ∧
      ∀ (enabled : Event → QuizState → Bool) (events : List Event),
        (run enabled quizQuestions events initialState).currentSection = .quiz →
        (run enabled quizQuestions events initialState).currentQuestionIdx
            < (run enabled quizQuestions events initialState).items.length ∧
          ((run enabled quizQuestions events initialState).currentQuestionIdx + 1
              = (run enabled quizQuestions events initialState).items.length →
            (goToNextQuestion (run enabled quizQuestions events initialState)).currentSection
                = .score ∧
              (goToNextQuestion (run enabled quizQuestions events initialState)).reviewIdx
                = 0) ∧
          ((run enabled quizQuestions events initialState).currentQuestionIdx + 1
              ≠ (run enabled quizQuestions events initialState).items.length →
            (goToNextQuestion (run enabled quizQuestions events initialState)).currentQuestionIdx
                = (run enabled quizQuestions events initialState).currentQuestionIdx + 1 ∧
              (goToNextQuestion (run enabled quizQuestions events initialState)).currentSection
                = .quiz) ∧
          (goToNextQuestion (run enabled quizQuestions events initialState)).items
            = (run enabled quizQuestions events initialState).items ∧
          (goToNextQuestion (run enabled quizQuestions events initialState)).score
            = (run enabled quizQuestions events initialState).score := by
  refine ⟨fun s hsec hlt => goToNextQuestion_of_inBounds s hsec hlt, ?_⟩
  intro enabled events hsec
  have hlt := run_invariant enabled quizQuestions
    (fun s => s.currentSection = .quiz → s.currentQuestionIdx < s.items.length)
    (fun e s hs _ => quizIndex_step quizQuestions (by simp [quizQuestions]) e s hs)
    events initialState (fun h => absurd h (by decide)) hsec
  exact ⟨hlt, goToNextQuestion_of_inBounds _ hsec hlt⟩


/-- Witness for C5: on the one-item state the only question is the last one,
and right after start on the fixed bank the first of ten questions is not. -/
theorem goToNextQuestion_last_or_next_witness :
    ((goToNextQuestion oneItemState).currentSection = .score ∧
        (goToNextQuestion oneItemState).reviewIdx = 0) ∧
      ((goToNextQuestion (run uiEnabled quizQuestions
          [.startQuiz (fun _ => Draws.zero) Draws.zero] initialState)).currentQuestionIdx
          = (run uiEnabled quizQuestions
            [.startQuiz (fun _ => Draws.zero) Draws.zero] initialState).currentQuestionIdx + 1 ∧
        (goToNextQuestion (run uiEnabled quizQuestions
          [.startQuiz (fun _ => Draws.zero) Draws.zero] initialState)).currentSection
          = .quiz) :=
  ⟨(goToNextQuestion_last_or_next.1 oneItemState rfl (by decide)).1 rfl,
    (goToNextQuestion_last_or_next.2 uiEnabled
      [.startQuiz (fun _ => Draws.zero) Draws.zero] rfl).2.2.1 (by decide)⟩

/-- C6: on a list of `N` pairwise-distinct items the map from draw sequences
(one index `j` with `0 ≤ j ≤ i` for every loop position `i` from `N - 1` down
to `1`) to the outputs of `shuffleArray` is a bijection onto the permutations
of the input: every random source acts as one of the draw sequences, every
output is a permutation, every permutation is the output of exactly one draw
sequence, and there are `N!` draw sequences. -/
theorem shuffleArray_draws_bijective {α : Type} (array : List α) (hnd : array.Nodup) :
    (∀ d : Draws, shuffleArray (d.toDrawSeq array.length).toDraws array = shuffleArray d array) ∧
      (∀ s : DrawSeq array.length, (shuffleArray s.toDraws array).Perm array) ∧
      (∀ p : List α, p.Perm array →
        ∃! s : DrawSeq array.length, shuffleArray s.toDraws array = p) ∧
      Fintype.card (DrawSeq array.length) = array.length.factorial := by
  refine ⟨fun d => shuffleArray_toDrawSeq d array, fun s => shuffleArray_perm _ _, ?_,
    card_drawSeq _⟩
  intro p hp
  obtain ⟨s, hs⟩ := shuffleArray_toDraws_surjective array hnd p hp
  exact ⟨s, hs, fun t ht => shuffleArray_toDraws_injective array hnd (ht.trans hs.symm)⟩

/-- Witness for C6 on the three distinct items `1, 2, 3` and their permutation
`3, 1, 2`. -/
theorem shuffleArray_draws_bijective_witness :
    [1, 2, 3].Nodup ∧ [3, 1, 2].Perm [1, 2, 3] ∧
      (∃! s : DrawSeq 3, shuffleArray s.toDraws [1, 2, 3] = [3, 1, 2]) ∧
      Fintype.card (DrawSeq 3) = 6 :=
  ⟨by decide, by decide,
    (shuffleArray_draws_bijective [1, 2, 3] (by decide)).2.2.1 [3, 1, 2] (by decide),
    (shuffleArray_draws_bijective [1, 2, 3] (by decide)).2.2.2⟩

/-- C7, as the code has it: on every question bank, also one that contains a
template whose correct-option index is outside the bounds of its options,
`startQuiz` reports no error and leaves section start: the section becomes
quiz, the current index and the score become 0, and there are as many items as
templates.  The item built from a template with an out-of-range correct index
has correct-option index `-1`. -/
theorem startQuiz_malformed_bank (bank : List QuestionTemplate) (optDraws : Nat → Draws)
    (itemDraws : Draws) (s : QuizState) :
    (startQuiz bank optDraws itemDraws s).currentSection = .quiz ∧
      (startQuiz bank optDraws itemDraws s).currentQuestionIdx = 0 ∧
      (startQuiz bank optDraws itemDraws s).score = 0 ∧
      (startQuiz bank optDraws itemDraws s).items.length = bank.length ∧
      ∀ (d : Draws) (tpl : QuestionTemplate),
        (tpl.a < 0 ∨ (tpl.o.length : Int) ≤ tpl.a) → (buildItem d tpl).a = -1 :=
  ⟨rfl, rfl, rfl, length_startQuiz_items bank optDraws itemDraws s,
    fun d tpl h => buildItem_a_out_of_range d tpl h⟩

/-- Witness for C7 on the bank whose only template has correct index `2` among
two options. -/
theorem startQuiz_malformed_bank_witness :
    (startQuiz malformedBank (fun _ => Draws.zero) Draws.zero initialState).currentSection
        = .quiz ∧
      (buildItem Draws.zero { q := "Q", o := ["x", "y"], a := 2 }).a = -1 :=
  have h := startQuiz_malformed_bank malformedBank (fun _ => Draws.zero) Draws.zero initialState
  ⟨h.1, h.2.2.2.2 Draws.zero { q := "Q", o := ["x", "y"], a := 2 } (by decide)⟩

/-- Counterexample to C7 as stated: the only template of `malformedBank` has its
correct index outside its options, and `startQuiz` on it from the initial state
does not stay in section start and does not leave the item list unchanged. -/
theorem startQuiz_malformed_bank_counterexample :
    (∃ tpl ∈ malformedBank, tpl.a < 0 ∨ (tpl.o.length : Int) ≤ tpl.a) ∧
      initialState.currentSection = .start ∧
      (startQuiz malformedBank (fun _ => Draws.zero) Draws.zero initialState).currentSection
        ≠ .start ∧
      (startQuiz malformedBank (fun _ => Draws.zero) Draws.zero initialState).items
        ≠ initialState.items := by
  decide

/-- C8, as the code has it: in section quiz with the current item's pick unset,
`chooseOption` with an index outside the current item's options is not a
no-op, for no bounds check is made: the item's pick is set to that index.  The
score is unchanged whenever the item's correct-option index is within the
bounds of its options. -/
theorem chooseOption_out_of_range (s : QuizState) (item : QuizItem) (selectedIdx : Int)
    (hsec : s.currentSection = .quiz)
    (hcur : s.items[s.currentQuestionIdx]? = some item)
    (hpick : item.pick = none)
    (hout : selectedIdx < 0 ∨ (item.opts.length : Int) ≤ selectedIdx) :
    (chooseOption selectedIdx s).items[s.currentQuestionIdx]?
        = some { item with pick := some selectedIdx } ∧
      (chooseOption selectedIdx s).currentSection = .quiz ∧
      (0 ≤ item.a ∧ item.a < (item.opts.length : Int) →
        (chooseOption selectedIdx s).score = s.score) := by
  have hlt : s.currentQuestionIdx < s.items.length := by
    by_contra hge
    rw [List.getElem?_eq_none (Nat.le_of_not_lt hge)] at hcur
    exact Option.noConfusion hcur
  refine ⟨?_, ?_, ?_⟩
  · simp [chooseOption, hcur, hpick, List.getElem?_set, hlt]
  · simp [chooseOption, hcur, hpick, hsec]
  · intro ha
    have hne : selectedIdx ≠ item.a := by omega
    simp [chooseOption, hcur, hpick, hne]

/-- Witness for C8 on the one-item state with the index `7`. -/
theorem chooseOption_out_of_range_witness :
    (chooseOption 7 oneItemState).items[0]?
        = some { q := "Q", opts := ["x", "y"], a := 0, pick := some 7 } ∧
      (chooseOption 7 oneItemState).score = 0 :=
  have h := chooseOption_out_of_range oneItemState
    { q := "Q", opts := ["x", "y"], a := 0, pick := none } 7 rfl rfl rfl (by decide)
  ⟨h.1, h.2.2 (by decide)⟩

/-- Counterexample to C8 as stated: in the one-item state (section quiz, pick
unset, two options) the index `7` is out of bounds, and after `chooseOption 7`
the pick is `7`, not unset. -/
theorem chooseOption_out_of_range_counterexample :
    oneItemState.currentSection = .quiz ∧
      oneItemState.items[oneItemState.currentQuestionIdx]?
        = some { q := "Q", opts := ["x", "y"], a := 0, pick := none } ∧
      ¬ ((0 : Int) ≤ 7 ∧ (7 : Int) < 2) ∧
      ((chooseOption 7 oneItemState).items[0]?).map (fun it => it.pick) = some (some 7) ∧
      chooseOption 7 oneItemState ≠ oneItemState := by
  decide

/-- C9: the review handlers clamp, and in every state reached from the initial
state through the events the page offers (start in section start; answer and
advance in section quiz, advance only after a pick; review prev and next and
restart in section score; key presses as `handleKeyDown` treats them), section
quiz implies `currentQuestionIdx < items.length` and section score implies
`0 ≤ reviewIdx ≤ items.length - 1`. -/
theorem displayed_index_in_bounds (events : List Event) :
    (∀ s : QuizState, (reviewPrev s).reviewIdx = max 0 (s.reviewIdx - 1) ∧
        (reviewNext s).reviewIdx = min ((s.items.length : Int) - 1) (s.reviewIdx + 1)) ∧
      ((run uiEnabled quizQuestions events initialState).currentSection = .quiz →
        (run uiEnabled quizQuestions events initialState).currentQuestionIdx
          < (run uiEnabled quizQuestions events initialState).items.length) ∧
      ((run uiEnabled quizQuestions events initialState).currentSection = .score →
        0 ≤ (run uiEnabled quizQuestions events initialState).reviewIdx ∧
          (run uiEnabled quizQuestions events initialState).reviewIdx
            ≤ ((run uiEnabled quizQuestions events initialState).items.length : Int) - 1) :=
  ⟨fun _ => ⟨rfl, rfl⟩,
    run_invariant uiEnabled quizQuestions
      (fun s => (s.currentSection = .quiz → s.currentQuestionIdx < s.items.length) ∧
        (s.currentSection = .score →
          0 ≤ s.reviewIdx ∧ s.reviewIdx ≤ (s.items.length : Int) - 1))
      (fun e s hs hen => indexInBounds_step quizQuestions (by simp [quizQuestions]) e s hs hen)
      events initialState ⟨fun h => absurd h (by decide), fun h => absurd h (by decide)⟩⟩

/-- Witness for C9: after start, an answer and an advance the quiz shows its
second question, and the index `1` is within the ten items. -/
theorem displayed_index_in_bounds_witness :
    (run uiEnabled quizQuestions
        [.startQuiz (fun _ => Draws.zero) Draws.zero, .chooseOption 0, .goToNextQuestion]
        initialState).currentSection = .quiz ∧
      (run uiEnabled quizQuestions
        [.startQuiz (fun _ => Draws.zero) Draws.zero, .chooseOption 0, .goToNextQuestion]
        initialState).currentQuestionIdx
        < (run uiEnabled quizQuestions
          [.startQuiz (fun _ => Draws.zero) Draws.zero, .chooseOption 0, .goToNextQuestion]
          initialState).items.length :=
  ⟨by decide, (displayed_index_in_bounds _).2.1 (by decide)⟩

/-- C10: from every state `restartQuiz` yields a state whose section is `start`
and whose item list is empty. -/
theorem restartQuiz_resets (s : QuizState) :
    (restartQuiz s).currentSection = .start ∧ (restartQuiz s).items = [] :=
  ⟨rfl, rfl⟩

end VikesQuiz
